import Mathlib

/-!
# RustGram — verification of the spec against the source

A shallow embedding of the RustGram image-hosting service (src/) in Lean.
Bytes are `Nat` values `< 256` in `List Nat`; Rust `Result<T, AppError>`
becomes `Except AppError T`; randomness (nonces, UUIDs) and external
collaborators (the Telegram backend, the image codec, wall-clock time)
become explicit parameters.  The `f32` arithmetic of the token bucket is
modelled over `ℚ`.
-/

/-- The error enum of `src/error.rs` (`AppError`). -/
inductive AppError where
  | TelegramError (msg : String)
  | EncryptionError (msg : String)
  | InvalidFileFormat (msg : String)
  | FileTooLarge (max_size : Nat)
  | RateLimitExceeded
  | NotFound
  | InvalidImageId
  | InternalError (msg : String)
  | ValidationError (msg : String)
  | ConfigError (msg : String)
  | Unauthorized
  | InvalidId
  | TooManyRequests
  deriving Repr, DecidableEq

/-- A byte string: every element is an 8-bit value. -/
def BytesValid (l : List Nat) : Prop := ∀ b ∈ l, b < 256

instance : DecidablePred BytesValid := fun l =>
  inferInstanceAs (Decidable (∀ b ∈ l, b < 256))

/-! ## AEAD model

Modelled from the spec: the AES-256-GCM primitive of the external
`aes_gcm` crate (§4.1 and glossary "AEAD": ciphertext plus a 16-byte
integrity tag; decryption fails closed if the tag does not verify).
The cipher is modelled as an additive stream cipher keyed by key and
nonce, with a 16-byte deterministic tag over the ciphertext body; it is
executable and deterministic, and decryption inverts encryption exactly
when the tag verifies, matching the interface the repository relies on. -/

/-- Keystream byte `i` derived from `key` and `nonce`. -/
def keystream (key nonce : List Nat) (i : Nat) : Nat :=
  (key.sum + 31 * nonce.sum + 17 * i + 7) % 256

/-- Mask a plaintext with the keystream starting at position `i`
(byte-wise addition modulo 256). -/
def maskAdd (key nonce : List Nat) : Nat → List Nat → List Nat
  | _, [] => []
  | i, b :: rest => (b + keystream key nonce i) % 256 :: maskAdd key nonce (i + 1) rest

/-- Unmask a ciphertext body (byte-wise subtraction modulo 256). -/
def maskSub (key nonce : List Nat) : Nat → List Nat → List Nat
  | _, [] => []
  | i, b :: rest =>
      (b + 256 - keystream key nonce i % 256) % 256 :: maskSub key nonce (i + 1) rest

/-- The 16-byte authentication tag over a ciphertext body. -/
def aeadTag (key nonce body : List Nat) : List Nat :=
  (List.range 16).map fun j =>
    (body.sum + (j + 1) * (key.sum + 13) + 5 * nonce.sum) % 256

/-- AEAD encryption: mask the plaintext with the keystream, append the tag. -/
def aeadEncrypt (key nonce pt : List Nat) : List Nat :=
  let body := maskAdd key nonce 0 pt
  body ++ aeadTag key nonce body

/-- AEAD decryption: verify the trailing 16-byte tag, then unmask;
fails closed (returns `none`) on short input or tag mismatch. -/
def aeadDecrypt (key nonce ct : List Nat) : Option (List Nat) :=
  if ct.length < 16 then none
  else
    let body := ct.take (ct.length - 16)
    let tag := ct.drop (ct.length - 16)
    if tag = aeadTag key nonce body then some (maskSub key nonce 0 body)
    else none

theorem maskAdd_length (key nonce : List Nat) :
    ∀ i pt, (maskAdd key nonce i pt).length = pt.length := by
  intro i pt
  induction pt generalizing i with
  | nil => rfl
  | cons b rest ih => simp [maskAdd, ih]

theorem maskAdd_valid (key nonce : List Nat) :
    ∀ i pt, BytesValid (maskAdd key nonce i pt) := by
  intro i pt
  induction pt generalizing i with
  | nil => intro b hb; simp [maskAdd] at hb
  | cons b rest ih =>
      intro x hx
      simp only [maskAdd, List.mem_cons] at hx
      rcases hx with h | h
      · omega
      · exact ih (i + 1) x h

theorem maskSub_maskAdd (key nonce : List Nat) :
    ∀ i pt, BytesValid pt → maskSub key nonce i (maskAdd key nonce i pt) = pt := by
  intro i pt
  induction pt generalizing i with
  | nil => intro _; rfl
  | cons b rest ih =>
      intro hv
      have hb : b < 256 := hv b (List.mem_cons_self _ _)
      have hrest : BytesValid rest := fun x hx => hv x (List.mem_cons_of_mem _ hx)
      simp only [maskAdd, maskSub, ih (i + 1) hrest]
      congr 1
      omega

theorem aeadTag_length (key nonce body : List Nat) : (aeadTag key nonce body).length = 16 := by
  simp [aeadTag]

theorem aeadTag_valid (key nonce body : List Nat) : BytesValid (aeadTag key nonce body) := by
  intro b hb
  simp only [aeadTag, List.mem_map] at hb
  obtain ⟨j, _, hj⟩ := hb
  omega

theorem aeadEncrypt_valid (key nonce pt : List Nat) : BytesValid (aeadEncrypt key nonce pt) := by
  intro b hb
  simp only [aeadEncrypt, List.mem_append] at hb
  rcases hb with h | h
  · exact maskAdd_valid key nonce 0 pt b h
  · exact aeadTag_valid key nonce _ b h

theorem aeadEncrypt_length (key nonce pt : List Nat) :
    (aeadEncrypt key nonce pt).length = pt.length + 16 := by
  simp [aeadEncrypt, maskAdd_length, aeadTag_length]

theorem aeadDecrypt_aeadEncrypt (key nonce pt : List Nat) (hpt : BytesValid pt) :
    aeadDecrypt key nonce (aeadEncrypt key nonce pt) = some pt := by
  have hlen := aeadEncrypt_length key nonce pt
  have hbody : (maskAdd key nonce 0 pt).length = pt.length := maskAdd_length key nonce 0 pt
  unfold aeadDecrypt
  rw [if_neg (by omega)]
  unfold aeadEncrypt
  simp only []
  have hcut : (maskAdd key nonce 0 pt ++ aeadTag key nonce (maskAdd key nonce 0 pt)).length - 16
      = (maskAdd key nonce 0 pt).length := by
    rw [List.length_append, aeadTag_length]
    omega
  rw [hcut, List.take_left, List.drop_left, if_pos rfl, maskSub_maskAdd key nonce 0 pt hpt]

/-! ## Unpadded URL-safe base64

Modelled from the spec and the external `base64` crate's
`general_purpose::URL_SAFE_NO_PAD` engine (§6 "Token format": unpadded
URL-safe base64).  Decoding is strict: it rejects characters outside the
alphabet, inputs of length ≡ 1 (mod 4), and non-zero trailing bits in
the final partial group. -/

/-- The URL-safe base64 alphabet, by sextet value. -/
def sextetToChar (s : Nat) : Char :=
  if s < 26 then Char.ofNat (65 + s)
  else if s < 52 then Char.ofNat (97 + (s - 26))
  else if s < 62 then Char.ofNat (48 + (s - 52))
  else if s = 62 then '-'
  else '_'

/-- Inverse alphabet lookup; `none` for characters outside the alphabet. -/
def charToSextet (c : Char) : Option Nat :=
  if 65 ≤ c.toNat ∧ c.toNat ≤ 90 then some (c.toNat - 65)
  else if 97 ≤ c.toNat ∧ c.toNat ≤ 122 then some (c.toNat - 97 + 26)
  else if 48 ≤ c.toNat ∧ c.toNat ≤ 57 then some (c.toNat - 48 + 52)
  else if c = '-' then some 62
  else if c = '_' then some 63
  else none

/-- Unpadded URL-safe base64 encoding of a byte string. -/
def b64Encode : List Nat → List Char
  | b1 :: b2 :: b3 :: rest =>
      sextetToChar (b1 / 4) ::
      sextetToChar (b1 % 4 * 16 + b2 / 16) ::
      sextetToChar (b2 % 16 * 4 + b3 / 64) ::
      sextetToChar (b3 % 64) :: b64Encode rest
  | [b1, b2] =>
      [sextetToChar (b1 / 4), sextetToChar (b1 % 4 * 16 + b2 / 16),
       sextetToChar (b2 % 16 * 4)]
  | [b1] => [sextetToChar (b1 / 4), sextetToChar (b1 % 4 * 16)]
  | [] => []

/-- Strict unpadded URL-safe base64 decoding. -/
def b64Decode : List Char → Option (List Nat)
  | c1 :: c2 :: c3 :: c4 :: rest =>
      match charToSextet c1, charToSextet c2, charToSextet c3, charToSextet c4,
            b64Decode rest with
      | some s1, some s2, some s3, some s4, some tail =>
          some ((s1 * 4 + s2 / 16) :: (s2 % 16 * 16 + s3 / 4) :: (s3 % 4 * 64 + s4) :: tail)
      | _, _, _, _, _ => none
  | [c1, c2, c3] =>
      match charToSextet c1, charToSextet c2, charToSextet c3 with
      | some s1, some s2, some s3 =>
          if s3 % 4 = 0 then some [s1 * 4 + s2 / 16, s2 % 16 * 16 + s3 / 4] else none
      | _, _, _ => none
  | [c1, c2] =>
      match charToSextet c1, charToSextet c2 with
      | some s1, some s2 => if s2 % 16 = 0 then some [s1 * 4 + s2 / 16] else none
      | _, _ => none
  | [_] => none
  | [] => some []

theorem charToSextet_sextetToChar : ∀ s, s < 64 → charToSextet (sextetToChar s) = some s := by
  decide

theorem b64Decode_b64Encode : ∀ bs : List Nat, BytesValid bs →
    b64Decode (b64Encode bs) = some bs := by
  intro bs
  induction bs using b64Encode.induct with
  | case1 b1 b2 b3 rest ih =>
      intro hv
      have h1 : b1 < 256 := hv b1 (by simp)
      have h2 : b2 < 256 := hv b2 (by simp)
      have h3 : b3 < 256 := hv b3 (by simp)
      have hrest : BytesValid rest := fun x hx => hv x (by simp [hx])
      simp only [b64Encode, b64Decode]
      rw [charToSextet_sextetToChar _ (by omega), charToSextet_sextetToChar _ (by omega),
          charToSextet_sextetToChar _ (by omega), charToSextet_sextetToChar _ (by omega),
          ih hrest]
      simp only [Option.some.injEq, List.cons.injEq]
      exact ⟨by omega, by omega, by omega, trivial⟩
  | case2 b1 b2 =>
      intro hv
      have h1 : b1 < 256 := hv b1 (by simp)
      have h2 : b2 < 256 := hv b2 (by simp)
      simp only [b64Encode, b64Decode]
      rw [charToSextet_sextetToChar _ (by omega), charToSextet_sextetToChar _ (by omega),
          charToSextet_sextetToChar _ (by omega)]
      simp only []
      rw [if_pos (by omega)]
      simp only [Option.some.injEq, List.cons.injEq]
      exact ⟨by omega, by omega, trivial⟩
  | case3 b1 =>
      intro hv
      have h1 : b1 < 256 := hv b1 (by simp)
      simp only [b64Encode, b64Decode]
      rw [charToSextet_sextetToChar _ (by omega), charToSextet_sextetToChar _ (by omega)]
      simp only []
      rw [if_pos (by omega)]
      simp only [Option.some.injEq, List.cons.injEq]
      exact ⟨by omega, trivial⟩
  | case4 =>
      intro _
      simp [b64Encode, b64Decode]

/-! ## FileReference and its canonical serialization

`FileReference` is the record of `src/models.rs`.  Its serialization is
modelled from the spec (§4.4 "encodeReference: serializes ref to a
canonical byte encoding"): the external `serde_json` crate's encoding is
replaced by a canonical injective byte encoding with a partial inverse
(length-prefixed strings of 3-byte scalar values, 8-byte little-endian
integers), faithful to what the repository relies on: an injective
serialize with a deserialize that inverts it and rejects garbage. -/

/-- Model of `FileReference` (`src/models.rs`): Rust `usize`/`i64` become
`Nat`/`Int`, the 12-byte nonce a byte list. -/
structure FileReference where
  file_id : String
  message_id : Int
  nonce : List Nat
  size : Nat
  mime_type : String
  deriving Repr, DecidableEq

/-- A well-formed `FileReference` value: the 12-byte nonce is made of
bytes, and the integer fields fit their Rust machine types
(`i64` for `message_id`, `u64`-sized `usize` for `size` and for the
string lengths). -/
def FileReference.Valid (r : FileReference) : Prop :=
  r.nonce.length = 12 ∧ BytesValid r.nonce ∧ r.size < 2 ^ 64 ∧
  -(2 ^ 63) ≤ r.message_id ∧ r.message_id < 2 ^ 63 ∧
  r.file_id.toList.length < 2 ^ 64 ∧ r.mime_type.toList.length < 2 ^ 64

instance (r : FileReference) : Decidable r.Valid := by
  unfold FileReference.Valid
  infer_instance

/-- The 8-byte little-endian encoding of a 64-bit natural number. -/
def natToBytes8 (n : Nat) : List Nat :=
  [n % 256, n / 256 % 256, n / 256 ^ 2 % 256, n / 256 ^ 3 % 256,
   n / 256 ^ 4 % 256, n / 256 ^ 5 % 256, n / 256 ^ 6 % 256, n / 256 ^ 7 % 256]

/-- Read back an 8-byte little-endian natural number. -/
def bytesToNat8 (bs : List Nat) : Nat :=
  match bs with
  | [b0, b1, b2, b3, b4, b5, b6, b7] =>
      b0 + 256 * b1 + 256 ^ 2 * b2 + 256 ^ 3 * b3 + 256 ^ 4 * b4 +
        256 ^ 5 * b5 + 256 ^ 6 * b6 + 256 ^ 7 * b7
  | _ => 0

/-- A Unicode scalar value as three little-endian bytes. -/
def charToBytes3 (c : Char) : List Nat :=
  [c.toNat % 256, c.toNat / 256 % 256, c.toNat / 65536 % 256]

/-- Length-prefixed string encoding: 8-byte length, then 3 bytes per
character. -/
def strToBytes (s : String) : List Nat :=
  natToBytes8 s.toList.length ++ (s.toList.map charToBytes3).flatten

/-- The 8-byte encoding of an `i64`, biased by `2^63`. -/
def intToBytes8 (m : Int) : List Nat :=
  natToBytes8 (m + 2 ^ 63).toNat

/-- Take exactly `n` bytes from the front, failing on short input. -/
def readBytes (n : Nat) (bs : List Nat) : Option (List Nat × List Nat) :=
  if n ≤ bs.length then some (bs.take n, bs.drop n) else none

/-- Read an 8-byte little-endian natural number. -/
def readNat8 (bs : List Nat) : Option (Nat × List Nat) :=
  match readBytes 8 bs with
  | some (chunk, rest) => some (bytesToNat8 chunk, rest)
  | none => none

/-- Read an 8-byte biased `i64`. -/
def readInt8 (bs : List Nat) : Option (Int × List Nat) :=
  match readNat8 bs with
  | some (n, rest) => some ((n : Int) - 2 ^ 63, rest)
  | none => none

/-- Read `n` characters of three bytes each. -/
def readChars : Nat → List Nat → Option (List Char × List Nat)
  | 0, bs => some ([], bs)
  | n + 1, bs =>
      match bs with
      | a :: b :: c :: rest =>
          match readChars n rest with
          | some (cs, rem) => some (Char.ofNat (a + 256 * b + 65536 * c) :: cs, rem)
          | none => none
      | _ => none

/-- Read a length-prefixed string. -/
def readString (bs : List Nat) : Option (String × List Nat) :=
  match readNat8 bs with
  | some (len, rest) =>
      match readChars len rest with
      | some (cs, rem) => some (List.asString cs, rem)
      | none => none
  | none => none

/-- Canonical serialization of a `FileReference`, field by field in
declaration order (`file_id`, `message_id`, `nonce`, `size`,
`mime_type`). -/
def serFileReference (r : FileReference) : List Nat :=
  strToBytes r.file_id ++ intToBytes8 r.message_id ++ r.nonce ++
    natToBytes8 r.size ++ strToBytes r.mime_type

/-- Deserialization of a `FileReference`; fails on malformed input or
trailing bytes. -/
def deserFileReference (bs : List Nat) : Option FileReference :=
  match readString bs with
  | some (fid, r1) =>
      match readInt8 r1 with
      | some (mid, r2) =>
          match readBytes 12 r2 with
          | some (nonce, r3) =>
              match readNat8 r3 with
              | some (size, r4) =>
                  match readString r4 with
                  | some (mime, r5) =>
                      if r5 = [] then some ⟨fid, mid, nonce, size, mime⟩ else none
                  | none => none
              | none => none
          | none => none
      | none => none
  | none => none

theorem natToBytes8_length (n : Nat) : (natToBytes8 n).length = 8 := rfl

theorem natToBytes8_valid (n : Nat) : BytesValid (natToBytes8 n) := by
  intro b hb
  simp only [natToBytes8, List.mem_cons, List.not_mem_nil, or_false] at hb
  rcases hb with h | h | h | h | h | h | h | h <;> omega

theorem bytesToNat8_natToBytes8 (n : Nat) (h : n < 2 ^ 64) :
    bytesToNat8 (natToBytes8 n) = n := by
  simp only [natToBytes8, bytesToNat8]
  omega

theorem readBytes_append (l rest : List Nat) (n : Nat) (h : l.length = n) :
    readBytes n (l ++ rest) = some (l, rest) := by
  subst h
  rw [readBytes, if_pos (by simp), List.take_left, List.drop_left]

theorem readNat8_append (n : Nat) (rest : List Nat) (h : n < 2 ^ 64) :
    readNat8 (natToBytes8 n ++ rest) = some (n, rest) := by
  rw [readNat8, readBytes_append _ _ 8 (natToBytes8_length n)]
  dsimp only
  rw [bytesToNat8_natToBytes8 n h]

theorem readInt8_append (m : Int) (rest : List Nat)
    (h1 : -(2 ^ 63) ≤ m) (h2 : m < 2 ^ 63) :
    readInt8 (intToBytes8 m ++ rest) = some (m, rest) := by
  rw [intToBytes8, readInt8, readNat8_append _ _ (by omega)]
  simp only [Option.some.injEq, Prod.mk.injEq]
  exact ⟨by omega, trivial⟩

theorem readChars_append (l : List Char) (rest : List Nat) :
    readChars l.length ((l.map charToBytes3).flatten ++ rest) = some (l, rest) := by
  induction l with
  | nil => rfl
  | cons c cs ih =>
      have hc : c.toNat < 1114112 := by
        rcases c.valid with h | h
        · exact Nat.lt_trans h (by norm_num)
        · exact h.2
      simp only [List.length_cons, List.map_cons, List.flatten_cons, charToBytes3,
        List.cons_append, List.append_assoc, readChars, ih]
      have harith : c.toNat % 256 + 256 * (c.toNat / 256 % 256) +
          65536 * (c.toNat / 65536 % 256) = c.toNat := by omega
      rw [harith, Char.ofNat_toNat]
      simp only [List.nil_append, ih]

theorem readString_append (s : String) (rest : List Nat)
    (h : s.toList.length < 2 ^ 64) :
    readString (strToBytes s ++ rest) = some (s, rest) := by
  rw [strToBytes, readString, List.append_assoc, readNat8_append _ _ h]
  dsimp only
  rw [readChars_append s.toList rest]
  dsimp only
  rfl

theorem strToBytes_valid (s : String) : BytesValid (strToBytes s) := by
  intro b hb
  simp only [strToBytes, List.mem_append] at hb
  rcases hb with h | h
  · exact natToBytes8_valid _ b h
  · rw [List.mem_flatten] at h
    obtain ⟨l, hl, hbl⟩ := h
    rw [List.mem_map] at hl
    obtain ⟨c, _, hc⟩ := hl
    subst hc
    simp only [charToBytes3, List.mem_cons, List.not_mem_nil, or_false] at hbl
    rcases hbl with h | h | h <;> omega

theorem serFileReference_valid (r : FileReference) (hnv : BytesValid r.nonce) :
    BytesValid (serFileReference r) := by
  intro b hb
  simp only [serFileReference, List.mem_append] at hb
  rcases hb with (((h | h) | h) | h) | h
  · exact strToBytes_valid _ b h
  · exact natToBytes8_valid _ b h
  · exact hnv b h
  · exact natToBytes8_valid _ b h
  · exact strToBytes_valid _ b h

theorem deserFileReference_serFileReference (r : FileReference) (h : r.Valid) :
    deserFileReference (serFileReference r) = some r := by
  obtain ⟨hn, hnv, hs, hm1, hm2, hf, hmt⟩ := h
  rw [serFileReference, deserFileReference]
  simp only [List.append_assoc]
  rw [readString_append _ _ hf]
  dsimp only
  rw [readInt8_append _ _ hm1 hm2]
  dsimp only
  rw [readBytes_append _ _ 12 hn]
  dsimp only
  rw [readNat8_append _ _ hs]
  dsimp only
  rw [← List.append_nil (strToBytes r.mime_type), readString_append _ _ hmt]
  dsimp only
  rw [if_pos rfl]

/-! ## CryptoService (`src/crypto.rs`)

`CryptoService` holds only the 32-byte key; it is modelled by passing
the key explicitly.  The Rust functions return `Result`; where the only
error arm wraps a cipher failure that the modelled cipher cannot
produce (`encrypt` of `aes_gcm` on valid input, `serde_json::to_vec` of
a plain struct), the model is total. -/

/-- Model of `CryptoService::encrypt_data` (src/crypto.rs lines 20-35): fresh
random nonce (an explicit parameter here), AEAD-encrypt, prepend the
nonce. -/
def encrypt_data (key nonce data : List Nat) : List Nat :=
  nonce ++ aeadEncrypt key nonce data

/-- Model of `CryptoService::decrypt_data` (src/crypto.rs lines 38-52): reject
inputs shorter than 12 bytes, split nonce and ciphertext, AEAD-decrypt;
both failure modes are `EncryptionError`. -/
def decrypt_data (key encrypted_data : List Nat) : Except AppError (List Nat) :=
  if encrypted_data.length < 12 then
    .error (.EncryptionError "Invalid encrypted data")
  else
    match aeadDecrypt key (encrypted_data.take 12) (encrypted_data.drop 12) with
    | some plaintext => .ok plaintext
    | none => .error (.EncryptionError "aead::Error")

/-- Model of `CryptoService::encrypt_file_reference` (src/crypto.rs lines
55-71): serialize, AEAD-encrypt under the reference's own stored nonce,
prepend the nonce, render as unpadded URL-safe base64. -/
def encrypt_file_reference (key : List Nat) (r : FileReference) : String :=
  (b64Encode (r.nonce ++ aeadEncrypt key r.nonce (serFileReference r))).asString

/-- Model of `CryptoService::decrypt_file_reference` (src/crypto.rs lines
74-94): base64-decode, require ≥ 12 bytes, split nonce and ciphertext,
AEAD-decrypt, deserialize; every failure is `InvalidImageId`. -/
def decrypt_file_reference (key : List Nat) (encrypted_id : String) :
    Except AppError FileReference :=
  match b64Decode encrypted_id.toList with
  | none => .error .InvalidImageId
  | some combined =>
      if combined.length < 12 then .error .InvalidImageId
      else
        match aeadDecrypt key (combined.take 12) (combined.drop 12) with
        | none => .error .InvalidImageId
        | some plaintext =>
            match deserFileReference plaintext with
            | none => .error .InvalidImageId
            | some file_ref => .ok file_ref

/-- Claim C1: For every valid `FileReference` `r`, decoding the token
produced by encoding `r` returns `r`:
`decrypt_file_reference (encrypt_file_reference r)` succeeds and yields
a `FileReference` equal to `r` in every field. -/
theorem C1_file_reference_roundtrip (key : List Nat) (r : FileReference)
    (h : r.Valid) :
    decrypt_file_reference key (encrypt_file_reference key r) = .ok r := by
  obtain ⟨hn, hnv, hs, hm1, hm2, hf, hmt⟩ := h
  have hser : BytesValid (serFileReference r) := serFileReference_valid r hnv
  set ct := aeadEncrypt key r.nonce (serFileReference r) with hct
  have hcomb : BytesValid (r.nonce ++ ct) := by
    intro b hb
    rcases List.mem_append.mp hb with hb | hb
    · exact hnv b hb
    · exact aeadEncrypt_valid key r.nonce _ b hb
  have hctlen : ct.length = (serFileReference r).length + 16 :=
    aeadEncrypt_length key r.nonce _
  rw [encrypt_file_reference, decrypt_file_reference]
  rw [show (List.asString (b64Encode (r.nonce ++ ct))).toList
      = b64Encode (r.nonce ++ ct) from rfl]
  rw [b64Decode_b64Encode _ hcomb]
  dsimp only
  rw [if_neg (by simp only [List.length_append, hn]; omega)]
  have htake : (r.nonce ++ ct).take 12 = r.nonce := by
    rw [← hn]; exact List.take_left _ _
  have hdrop : (r.nonce ++ ct).drop 12 = ct := by
    rw [← hn]; exact List.drop_left _ _
  rw [htake, hdrop, hct, aeadDecrypt_aeadEncrypt key r.nonce _ hser]
  dsimp only
  rw [deserFileReference_serFileReference r ⟨hn, hnv, hs, hm1, hm2, hf, hmt⟩]

/-- Concrete key and reference used by the closed witnesses. -/
def witKey : List Nat := List.range 32

/-- Concrete valid `FileReference` used by the closed witnesses. -/
def witRef : FileReference :=
  { file_id := "test_file_id"
    message_id := 12345
    nonce := List.range 12
    size := 1024
    mime_type := "image/jpeg" }

/-- Witness for C1 at a concrete reference. -/
theorem C1_file_reference_roundtrip_witness :
    witRef.Valid ∧
      decrypt_file_reference witKey (encrypt_file_reference witKey witRef) = .ok witRef :=
  ⟨by decide, C1_file_reference_roundtrip witKey witRef (by decide)⟩

/-- Claim C2: For every input string on which `decrypt_file_reference`
fails — whatever the cause (bad base64, short payload, authentication
failure, bad deserialization) — the error returned is the single
`InvalidImageId` value; no other error variant is ever returned. -/
theorem C2_decrypt_file_reference_error_collapsing (key : List Nat) (s : String) :
    (∃ r, decrypt_file_reference key s = .ok r) ∨
      decrypt_file_reference key s = .error .InvalidImageId := by
  rw [decrypt_file_reference]
  cases b64Decode s.toList with
  | none => exact Or.inr rfl
  | some combined =>
      dsimp only
      by_cases hlen : combined.length < 12
      · rw [if_pos hlen]; exact Or.inr rfl
      · rw [if_neg hlen]
        cases aeadDecrypt key (combined.take 12) (combined.drop 12) with
        | none => exact Or.inr rfl
        | some plaintext =>
            dsimp only
            cases deserFileReference plaintext with
            | none => exact Or.inr rfl
            | some r => exact Or.inl ⟨r, rfl⟩

/-- Claim C6: For every byte string `p` (including the empty string),
`decrypt_data (encrypt_data p)` succeeds and returns exactly `p`, under
the same key. -/
theorem C6_data_roundtrip (key nonce p : List Nat)
    (hn : nonce.length = 12) (hp : BytesValid p) :
    decrypt_data key (encrypt_data key nonce p) = .ok p := by
  have hctlen : (aeadEncrypt key nonce p).length = p.length + 16 :=
    aeadEncrypt_length key nonce p
  rw [encrypt_data, decrypt_data,
      if_neg (by simp only [List.length_append, hn]; omega)]
  have htake : (nonce ++ aeadEncrypt key nonce p).take 12 = nonce := by
    rw [← hn]; exact List.take_left _ _
  have hdrop : (nonce ++ aeadEncrypt key nonce p).drop 12 = aeadEncrypt key nonce p := by
    rw [← hn]; exact List.drop_left _ _
  rw [htake, hdrop, aeadDecrypt_aeadEncrypt key nonce p hp]

/-- Witness for C6: the empty plaintext round-trips. -/
theorem C6_data_roundtrip_witness :
    (List.range 12).length = 12 ∧ BytesValid ([] : List Nat) ∧
      decrypt_data witKey (encrypt_data witKey (List.range 12) []) = .ok [] :=
  ⟨by decide, by decide, C6_data_roundtrip witKey (List.range 12) [] (by decide) (by decide)⟩

/-! ## TokenBucket (`src/middleware/rate_limit.rs`)

`f32` values are modelled over `ℚ` and `Instant` as a rational
timestamp in seconds; `Instant::duration_since` saturates at zero, so
the elapsed time is `max 0 (now - last_refill)`.  Refill happens only
inside `try_consume` (via `refill`), never in a background task. -/

/-- Model of `TokenBucket` (src/middleware/rate_limit.rs lines 117-123). -/
structure TokenBucket where
  tokens : ℚ
  capacity : ℚ
  refill_rate : ℚ
  last_refill : ℚ
  deriving DecidableEq, Repr

/-- Model of `TokenBucket::new` (lines 126-134): starts full, with
`refill_rate = capacity / 60` tokens per second. -/
def TokenBucket.new (requests_per_minute : Nat) (now : ℚ) : TokenBucket :=
  { tokens := requests_per_minute
    capacity := requests_per_minute
    refill_rate := (requests_per_minute : ℚ) / 60
    last_refill := now }

/-- Model of `TokenBucket::refill` (lines 147-153): lazy refill from elapsed
wall time, capped at capacity. -/
def TokenBucket.refill (b : TokenBucket) (now : ℚ) : TokenBucket :=
  { b with
    tokens := min b.capacity (b.tokens + max 0 (now - b.last_refill) * b.refill_rate)
    last_refill := now }

/-- Model of `TokenBucket::try_consume` (lines 136-145): refill, then spend one
token if at least one is available. -/
def TokenBucket.tryConsume (b : TokenBucket) (now : ℚ) : Bool × TokenBucket :=
  let b' := b.refill now
  if 1 ≤ b'.tokens then (true, { b' with tokens := b'.tokens - 1 })
  else (false, b')

/-- Run `try_consume` once per timestamp in the list, collecting the
admission results and the final bucket. -/
def TokenBucket.consumeSeq (b : TokenBucket) : List ℚ → List Bool × TokenBucket
  | [] => ([], b)
  | t :: ts =>
      let r := b.tryConsume t
      let rs := r.2.consumeSeq ts
      (r.1 :: rs.1, rs.2)

/-- The data-model invariant of a token bucket (spec §3): the token
count stays within `[0, capacity]`; the refill rate is nonnegative. -/
def TokenBucket.Inv (b : TokenBucket) : Prop :=
  0 ≤ b.tokens ∧ b.tokens ≤ b.capacity ∧ 0 ≤ b.refill_rate

theorem tryConsume_inv (b : TokenBucket) (now : ℚ) (hb : b.Inv) :
    ((b.tryConsume now).2).Inv := by
  obtain ⟨h0, hc, hr⟩ := hb
  have hcap : (0 : ℚ) ≤ b.capacity := le_trans h0 hc
  have helapsed : (0 : ℚ) ≤ max 0 (now - b.last_refill) := le_max_left 0 _
  have href0 : (0 : ℚ) ≤ min b.capacity (b.tokens + max 0 (now - b.last_refill) * b.refill_rate) := by
    refine le_min hcap ?goal
    have := mul_nonneg helapsed hr
    linarith
  have hrefc : min b.capacity (b.tokens + max 0 (now - b.last_refill) * b.refill_rate)
      ≤ b.capacity := min_le_left _ _
  rw [TokenBucket.tryConsume]
  dsimp only [TokenBucket.refill]
  by_cases h1 : (1 : ℚ) ≤ min b.capacity (b.tokens + max 0 (now - b.last_refill) * b.refill_rate)
  · rw [if_pos h1]
    refine ⟨?_, ?_, ?_⟩
    · dsimp only
      linarith
    · dsimp only
      linarith
    · dsimp only
      linarith
  · rw [if_neg h1]
    refine ⟨?_, ?_, ?_⟩
    · dsimp only
      linarith
    · dsimp only
      linarith
    · dsimp only
      linarith

theorem consumeSeq_inv (b : TokenBucket) (times : List ℚ) (hb : b.Inv) :
    ((b.consumeSeq times).2).Inv := by
  induction times generalizing b with
  | nil => exact hb
  | cons t ts ih =>
      rw [TokenBucket.consumeSeq]
      exact ih _ (tryConsume_inv b t hb)

/-- Claim C9: a fresh bucket satisfies the invariant; for every bucket
satisfying it, after any sequence of `try_consume` operations at
arbitrary times the `tokens` field never exceeds `capacity` and never
falls below 0; and refill happens only lazily inside the consume
operation, as `min(capacity, tokens + elapsed_seconds × refill_rate)`
from elapsed wall time. -/
theorem C9_token_bucket_invariant :
    (∀ (rpm : Nat) (t0 : ℚ), (TokenBucket.new rpm t0).Inv) ∧
    (∀ (b : TokenBucket) (times : List ℚ), b.Inv → ((b.consumeSeq times).2).Inv) ∧
    (∀ (b : TokenBucket) (now : ℚ),
      ((b.tryConsume now).2).tokens =
        (let refilled := min b.capacity
          (b.tokens + max 0 (now - b.last_refill) * b.refill_rate)
         if 1 ≤ refilled then refilled - 1 else refilled)) := by
  refine ⟨?hnew, consumeSeq_inv, ?hformula⟩
  · intro rpm t0
    dsimp only [TokenBucket.Inv, TokenBucket.new]
    refine ⟨by positivity, le_refl _, by positivity⟩
  · intro b now
    rw [TokenBucket.tryConsume]
    dsimp only [TokenBucket.refill]
    by_cases h1 : (1 : ℚ) ≤ min b.capacity (b.tokens + max 0 (now - b.last_refill) * b.refill_rate)
    · rw [if_pos h1, if_pos h1]
    · rw [if_neg h1, if_neg h1]

/-- Witness for C9: a fresh 5-per-minute bucket, consumed at times 0, 3
and 20, still satisfies the invariant. -/
theorem C9_token_bucket_invariant_witness :
    (TokenBucket.new 5 0).Inv ∧
      (((TokenBucket.new 5 0).consumeSeq [0, 3, 20]).2).Inv := by
  have h := C9_token_bucket_invariant
  have hnew : (TokenBucket.new 5 0).Inv := h.1 5 0
  exact ⟨hnew, h.2.1 _ [0, 3, 20] hnew⟩

/-- Claim C5: a token bucket created with capacity 5 admits exactly 5
consecutive `try_consume` calls made with no elapsed time, denies the
6th such call, and after at least 12 seconds of elapsed time admits one
further call. -/
theorem C5_token_bucket_capacity_five (t : ℚ) (ht : 12 ≤ t) :
    ((TokenBucket.new 5 0).consumeSeq [0, 0, 0, 0, 0, 0, t]).1 =
      [true, true, true, true, true, false, true] := by
  have h1 : (1 : ℚ) ≤ min 5 (0 + max 0 (t - 0) * (5 / 60)) := by
    rw [max_eq_right (by linarith), le_min_iff]
    exact ⟨by norm_num, by nlinarith⟩
  norm_num [TokenBucket.consumeSeq, TokenBucket.tryConsume, TokenBucket.refill,
    TokenBucket.new] at h1 ⊢
  rw [if_pos h1]

/-- Witness for C5 at exactly 12 seconds. -/
theorem C5_token_bucket_capacity_five_witness :
    (12 : ℚ) ≤ 12 ∧
      ((TokenBucket.new 5 0).consumeSeq [0, 0, 0, 0, 0, 0, 12]).1 =
        [true, true, true, true, true, false, true] :=
  ⟨le_refl 12, C5_token_bucket_capacity_five 12 (le_refl 12)⟩

/-! ## Data model (`src/models.rs`, `src/worker.rs`) -/

/-- Model of `UploadResponse` (src/models.rs). -/
structure UploadResponse where
  id : String
  url : String
  size : Nat
  mime_type : String
  deriving Repr, DecidableEq

/-- Model of `JobStatus` (src/models.rs): three variants are modelled, as in the
source. -/
inductive JobStatus where
  | Pending
  | Completed (response : UploadResponse)
  | Failed (error : String)
  deriving Repr, DecidableEq

/-- Model of `TelegramDocument` (src/models.rs). -/
structure TelegramDocument where
  file_id : String
  file_unique_id : String
  file_name : Option String
  mime_type : Option String
  file_size : Option Int
  deriving Repr, DecidableEq

/-- Model of `TelegramPhotoSize` (src/models.rs). -/
structure TelegramPhotoSize where
  file_id : String
  file_unique_id : String
  width : Int
  height : Int
  file_size : Option Int
  deriving Repr, DecidableEq

/-- Model of `TelegramMessage` (src/models.rs). -/
structure TelegramMessage where
  message_id : Int
  document : Option TelegramDocument
  photo : Option (List TelegramPhotoSize)
  deriving Repr, DecidableEq

/-- Model of `UploadJob` (src/worker.rs): the client socket address is kept as a
string. -/
structure UploadJob where
  job_id : String
  encrypted_data : List Nat
  unique_filename : String
  original_size : Nat
  mime_type : String
  client_ip : String
  deriving Repr, DecidableEq

/-- Model of `JobStore` (src/worker.rs): the shared
`HashMap<String, FileReference>` modelled as an association list;
`HashMap::insert` prepends, `HashMap::get` is `List.lookup`. -/
def JobStore := List (String × FileReference)

/-! ## Job-status handler (`src/handlers/job.rs`) -/

/-- The `UploadResponse` built by `get_job_status` for a completed job
(src/handlers/job.rs lines 26-35). -/
def completedResponse (key : List Nat) (file_ref : FileReference) : UploadResponse :=
  let encrypted_id := encrypt_file_reference key file_ref
  { id := encrypted_id
    url := "/image/" ++ encrypted_id
    size := file_ref.size
    mime_type := file_ref.mime_type }

/-- Model of `get_job_status` (src/handlers/job.rs lines 15-47): the encryption
key comes straight from config (its decode cannot fail for a validated
config) and mutex acquisition is modelled as always succeeding.  The
result pairs the HTTP status code with the JSON body. -/
def get_job_status (key : List Nat) (job_store : List (String × FileReference))
    (job_id : String) : Except AppError (Nat × JobStatus) :=
  match job_store.lookup job_id with
  | some file_ref => .ok (200, .Completed (completedResponse key file_ref))
  | none => .ok (202, .Pending)

/-! ## Worker (`src/worker.rs`) -/

/-- Model of `process_job` (src/worker.rs lines 69-105): the backend call
`telegram_service.upload_file` is an external collaborator, so its
outcome is a parameter, as is the fresh nonce drawn inside
`FileReference::new`.  Returns the job result together with the job
store after the call. -/
def process_job (job : UploadJob) (uploadResult : Except AppError TelegramMessage)
    (freshNonce : List Nat) (job_store : List (String × FileReference)) :
    Except AppError Unit × List (String × FileReference) :=
  match uploadResult with
  | .error e => (.error e, job_store)
  | .ok telegram_message =>
      match telegram_message.document with
      | none => (.error (.TelegramError "No document in response"), job_store)
      | some doc =>
          (.ok (),
            (job.job_id,
              { file_id := doc.file_id
                message_id := telegram_message.message_id
                nonce := freshNonce
                size := job.original_size
                mime_type := job.mime_type }) :: job_store)

/-! ## Admin handler (`src/handlers/admin.rs`)

`send_log_message` is the external logging collaborator; the spec (§6)
gives its contract as fire-and-forget, so it is modelled as always
succeeding and elided. -/

/-- Rust's `str::split('_')` over the character list: split on every
underscore, keeping empty fields. -/
def splitUnderscore : List Char → List Char → List (List Char)
  | [], acc => [acc.reverse]
  | c :: rest, acc =>
      if c = '_' then acc.reverse :: splitUnderscore rest []
      else splitUnderscore rest (c :: acc)

/-- Digit-string value accumulator for `parseI64`. -/
def digitsToNatAux : Nat → List Char → Option Nat
  | acc, [] => some acc
  | acc, c :: rest =>
      if '0' ≤ c ∧ c ≤ '9' then digitsToNatAux (acc * 10 + (c.toNat - 48)) rest
      else none

/-- Rust's `str::parse::<i64>`: optional sign, at least one digit, all
digits, and the value must fit `i64`. -/
def parseI64 (cs : List Char) : Option Int :=
  match cs with
  | [] => none
  | '-' :: rest =>
      match rest with
      | [] => none
      | _ =>
          match digitsToNatAux 0 rest with
          | some n => if n ≤ 2 ^ 63 then some (-(n : Int)) else none
          | none => none
  | '+' :: rest =>
      match rest with
      | [] => none
      | _ =>
          match digitsToNatAux 0 rest with
          | some n => if n < 2 ^ 63 then some (n : Int) else none
          | none => none
  | _ =>
      match digitsToNatAux 0 cs with
      | some n => if n < 2 ^ 63 then some (n : Int) else none
      | none => none

/-- Model of `delete_image` (src/handlers/admin.rs lines 22-60): the outcome of
the backend `delete_message` call is a parameter.  The first component
records whether the backend delete call was issued at all; the second
is the handler's result (`200` on success). -/
def delete_image (admin_secret api_key id : String)
    (deleteResult : Except AppError Unit) : Bool × Except AppError Nat :=
  if api_key ≠ admin_secret then (false, .error .Unauthorized)
  else
    match splitUnderscore id.toList [] with
    | [chatStr, msgStr] =>
        match parseI64 chatStr, parseI64 msgStr with
        | some _chat_id, some _message_id =>
            match deleteResult with
            | .ok _ => (true, .ok 200)
            | .error e => (true, .error e)
        | _, _ => (false, .error .InvalidId)
    | _ => (false, .error .InvalidId)

/-! ## Upload handler (`src/handlers/upload.rs`)

`upload_image` as wired to `POST /upload` in `src/main.rs` line 81.  The
multipart extraction is modelled post-hoc (`image_data`, `filename`,
`mime_field` are the extracted fields), and the external collaborators —
`mime_guess` (`detected_mime`), `image::load_from_memory`
(`imageDecodeOk`), `Uuid::new_v4` (`uuid`), `OsRng`/`thread_rng` nonces,
and the backend `upload_file` call — are parameters.  A handler success
is rendered by axum's `Json` with HTTP status 200. -/

/-- Model of `upload_image` (src/handlers/upload.rs lines 16-149). -/
def upload_image (max_file_size : Nat) (allowed_image_types : List String)
    (image_data : Option (List Nat)) (filename : Option String)
    (mime_field : Option String) (detected_mime : String) (imageDecodeOk : Bool)
    (key dataNonce : List Nat) (uuid : String)
    (uploadResult : Except AppError TelegramMessage) (refNonce : List Nat) :
    Except AppError (Nat × UploadResponse) :=
  match image_data with
  | none => .error (.ValidationError "No image file found in request")
  | some data =>
      if data.length > max_file_size then .error (.FileTooLarge max_file_size)
      else
        let final_mime_type := mime_field.getD detected_mime
        if final_mime_type ∉ allowed_image_types then
          .error (.InvalidFileFormat ("Unsupported image type: " ++ final_mime_type))
        else if !imageDecodeOk then
          .error (.InvalidFileFormat "Invalid image data")
        else
          let _encrypted_data := encrypt_data key dataNonce data
          let _unique_filename := uuid ++ "_" ++ filename.getD "image.bin"
          match uploadResult with
          | .error e => .error e
          | .ok telegram_message =>
              match telegram_message.document with
              | none => .error (.TelegramError "No document in response")
              | some doc =>
                  let file_ref : FileReference :=
                    { file_id := doc.file_id
                      message_id := telegram_message.message_id
                      nonce := refNonce
                      size := data.length
                      mime_type := final_mime_type }
                  let encrypted_id := encrypt_file_reference key file_ref
                  .ok (200,
                    { id := encrypted_id
                      url := "/image/" ++ encrypted_id
                      size := data.length
                      mime_type := final_mime_type })

/-- Claim C4: the route `GET /job/:id` returns 200 with status `Completed`
(carrying the response built from the stored `FileReference`) if and
only if the `JobStore` contains an entry for the id, and otherwise
returns 202 with status `Pending`; the `Failed` variant is never
returned to a client. -/
theorem C4_job_status_completed_iff (key : List Nat)
    (store : List (String × FileReference)) (id : String) :
    ((∃ fr, store.lookup id = some fr ∧
        get_job_status key store id = .ok (200, .Completed (completedResponse key fr))) ∨
      (store.lookup id = none ∧ get_job_status key store id = .ok (202, .Pending))) ∧
    ∀ (code : Nat) (err : String),
      get_job_status key store id ≠ .ok (code, .Failed err) := by
  constructor
  · cases h : store.lookup id with
    | some fr =>
        refine Or.inl ⟨fr, rfl, ?_⟩
        rw [get_job_status, h]
    | none =>
        refine Or.inr ⟨rfl, ?_⟩
        rw [get_job_status, h]
  · intro code err hcontra
    rw [get_job_status] at hcontra
    cases h : store.lookup id with
    | some fr =>
        rw [h] at hcontra
        simp at hcontra
    | none =>
        rw [h] at hcontra
        simp at hcontra

/-- Witness for C4 on a one-entry store. -/
theorem C4_job_status_completed_iff_witness :
    ((∃ fr, ([("job1", witRef)] : List (String × FileReference)).lookup "job1" = some fr ∧
        get_job_status witKey [("job1", witRef)] "job1" =
          .ok (200, .Completed (completedResponse witKey fr))) ∨
      (([("job1", witRef)] : List (String × FileReference)).lookup "job1" = none ∧
        get_job_status witKey [("job1", witRef)] "job1" = .ok (202, .Pending))) ∧
    ∀ (code : Nat) (err : String),
      get_job_status witKey [("job1", witRef)] "job1" ≠ .ok (code, .Failed err) :=
  C4_job_status_completed_iff witKey [("job1", witRef)] "job1"

/-- Claim C10: the handler `get_job_status` never returns an error response: for
every id it succeeds, and for every id absent from the `JobStore` —
pending, failed, or never issued — the result is 202 with status
`Pending`. -/
theorem C10_job_status_absent_is_pending (key : List Nat)
    (store : List (String × FileReference)) (id : String) :
    (∃ v, get_job_status key store id = .ok v) ∧
    (store.lookup id = none → get_job_status key store id = .ok (202, .Pending)) := by
  constructor
  · rw [get_job_status]
    cases store.lookup id with
    | some fr => exact ⟨_, rfl⟩
    | none => exact ⟨_, rfl⟩
  · intro h
    rw [get_job_status, h]

/-- Witness for C10 on an empty store and a never-issued id. -/
theorem C10_job_status_absent_is_pending_witness :
    (∃ v, get_job_status witKey [] "no-such-job" = .ok v) ∧
      get_job_status witKey [] "no-such-job" = .ok (202, .Pending) :=
  ⟨(C10_job_status_absent_is_pending witKey [] "no-such-job").1,
   (C10_job_status_absent_is_pending witKey [] "no-such-job").2 rfl⟩

/-- Claim C7: When the worker's processing of a job fails (backend
upload error or missing document in the response), no entry is inserted
into the `JobStore`: the store is returned unchanged. -/
theorem C7_failed_job_leaves_store_unchanged (job : UploadJob)
    (uploadResult : Except AppError TelegramMessage) (freshNonce : List Nat)
    (store : List (String × FileReference)) (e : AppError)
    (h : (process_job job uploadResult freshNonce store).1 = .error e) :
    (process_job job uploadResult freshNonce store).2 = store := by
  cases uploadResult with
  | error e' => rfl
  | ok msg =>
      rw [process_job] at h ⊢
      cases hd : msg.document with
      | none => rfl
      | some doc =>
          rw [hd] at h
          exact absurd h (by simp)

/-- Concrete job used by the C7 witness. -/
def witJob : UploadJob :=
  { job_id := "job1"
    encrypted_data := []
    unique_filename := "u_image.bin"
    original_size := 0
    mime_type := "image/png"
    client_ip := "127.0.0.1:9000" }

/-- Witness for C7: a backend failure leaves an empty store empty. -/
theorem C7_failed_job_leaves_store_unchanged_witness :
    (process_job witJob (.error (.TelegramError "upstream down")) [] []).1 =
        .error (.TelegramError "upstream down") ∧
      (process_job witJob (.error (.TelegramError "upstream down")) [] []).2 = [] :=
  ⟨rfl, C7_failed_job_leaves_store_unchanged witJob
    (.error (.TelegramError "upstream down")) [] [] (.TelegramError "upstream down") rfl⟩

/-- Claim C8, counterexample: with an empty configured admin secret the
admin route is *not* disabled: a request presenting an empty `api_key`
passes the authentication check and the backend delete call is issued
(and succeeds). -/
theorem C8_empty_secret_route_not_disabled :
    delete_image "" "" "1_2" (.ok ()) = (true, .ok 200) := by
  rfl

/-- Claim C8 as amended: every request whose `api_key` differs from the
configured admin secret gets `401 Unauthorized` and no backend delete
call is issued; an empty admin secret does *not* disable the route (see
the counterexample: an empty `api_key` then authenticates). -/
theorem C8_wrong_api_key_unauthorized (admin_secret api_key id : String)
    (deleteResult : Except AppError Unit) (h : api_key ≠ admin_secret) :
    delete_image admin_secret api_key id deleteResult = (false, .error .Unauthorized) := by
  rw [delete_image.eq_def, if_pos h]

/-- Witness for the amended C8. -/
theorem C8_wrong_api_key_unauthorized_witness :
    ("wrong" : String) ≠ "secret" ∧
      delete_image "secret" "wrong" "1_2" (.ok ()) = (false, .error .Unauthorized) :=
  ⟨by decide, C8_wrong_api_key_unauthorized "secret" "wrong" "1_2" (.ok ()) (by decide)⟩

/-- Claim C3: every run of the `/upload` handler either fails with an
error or succeeds with HTTP status 200 and an `UploadResponse` body
(`id`, `url`, `size`, `mime_type`); it never returns 202 with a
`job_id`/`status_url` body, and it never touches the job queue (the
queue is not even an input of the handler). -/
theorem C3_upload_sync_success_is_200 (max_file_size : Nat)
    (allowed_image_types : List String) (image_data : Option (List Nat))
    (filename : Option String) (mime_field : Option String) (detected_mime : String)
    (imageDecodeOk : Bool) (key dataNonce : List Nat) (uuid : String)
    (uploadResult : Except AppError TelegramMessage) (refNonce : List Nat) :
    (∃ e, upload_image max_file_size allowed_image_types image_data filename
        mime_field detected_mime imageDecodeOk key dataNonce uuid uploadResult
        refNonce = .error e) ∨
    (∃ resp, upload_image max_file_size allowed_image_types image_data filename
        mime_field detected_mime imageDecodeOk key dataNonce uuid uploadResult
        refNonce = .ok (200, resp)) := by
  cases image_data with
  | none => exact Or.inl ⟨_, rfl⟩
  | some data =>
      simp only [upload_image]
      by_cases h1 : data.length > max_file_size
      · rw [if_pos h1]
        exact Or.inl ⟨_, rfl⟩
      · rw [if_neg h1]
        by_cases h2 : (mime_field.getD detected_mime) ∉ allowed_image_types
        · rw [if_pos h2]
          exact Or.inl ⟨_, rfl⟩
        · rw [if_neg h2]
          by_cases h3 : (!imageDecodeOk) = true
          · rw [if_pos h3]
            exact Or.inl ⟨_, rfl⟩
          · rw [if_neg h3]
            cases uploadResult with
            | error e => exact Or.inl ⟨_, rfl⟩
            | ok msg =>
                dsimp only
                cases msg.document with
                | none => exact Or.inl ⟨_, rfl⟩
                | some doc => exact Or.inr ⟨_, rfl⟩

/-- Backend message used to exercise a successful upload concretely. -/
def witMsg : TelegramMessage :=
  { message_id := 7
    document := some
      { file_id := "doc-file-id"
        file_unique_id := "doc-unique"
        file_name := none
        mime_type := none
        file_size := none }
    photo := none }

/-- A concrete successful `/upload` run: all validations pass, the
backend returns a document, and the handler's HTTP status is 200 (not
202). -/
theorem upload_sync_concrete_success_status :
    (upload_image 10485760 ["image/jpeg", "image/png", "image/gif", "image/webp"]
        (some []) none (some "image/png") "application/octet-stream" true witKey
        (List.range 12) "uuid" (.ok witMsg) (List.range 12)).map Prod.fst =
      .ok 200 := by
  rfl
